import Mathlib

/-!
Verification of the WebForge request-processing core (wf namespace, C++).

This file gives a shallow embedding of the components the claims touch:

* `webforge/http/strings.cc` — `CaseInsensitive`, `URLDecode`,
  `ParseQueryString`;
* `webforge/http/http.cc` — `wf::Request` (method/header storage),
  `wf::Response` (head-written / finished flags, header map, `WriteHead`,
  `Write`, `End`) together with an explicit output-sink event log;
* `src/unnamed/part_005` (`router.cc`) — `wf::Route::Match`,
  `wf::Router::NextFactory` (the trampolined scan), `wf::Router::Handle`
  and its error cascade;
* `webforge/site/middleware.cc` — `wf::StaticMiddleware::operator()`
  with the filesystem and date collaborators held abstract.

Machine integers do not matter on these paths; C++ `std::string` is modelled
as `String` / `List Char`, `absl::Status` as a code/message pair, and the
`absl::flat_hash_map`s as association lists with the same contains/insert
behaviour the code relies on.
-/

namespace WF

/-- The subset of `absl::StatusCode` values the dispatch core produces. -/
inductive StatusCode where
  | ok
  | notFound
  | failedPrecondition
  | invalidArgument
  | unavailable
  | internal
  deriving DecidableEq, Repr

/-- `absl`'s upper-case rendering of a status code, as used by
`absl::Status::ToString`. -/
def StatusCode.render : StatusCode → String
  | .ok => "OK"
  | .notFound => "NOT_FOUND"
  | .failedPrecondition => "FAILED_PRECONDITION"
  | .invalidArgument => "INVALID_ARGUMENT"
  | .unavailable => "UNAVAILABLE"
  | .internal => "INTERNAL"

/-- An `absl::Status`: a code plus a message. `absl::OkStatus()` is
`⟨.ok, ""⟩`. -/
structure Status where
  code : StatusCode
  message : String
  deriving DecidableEq, Repr

def okStatus : Status := ⟨.ok, ""⟩

def Status.isOk (s : Status) : Bool := s.code == .ok

/-- `absl::Status::ToString(absl::StatusToStringMode::kWithEverything)`:
the code name, a colon-space, and the message (no payloads are attached
anywhere in this code base). -/
def Status.render (s : Status) : String :=
  if s.isOk then "OK" else s.code.render ++ ": " ++ s.message

/-- `wf::CaseInsensitive` (strings.cc:166-171): lower-case every character
(`std::tolower` in the default locale lower-cases the ASCII range, which is
what `Char.toLower` does). -/
def CaseInsensitive (s : String) : String := ⟨s.toList.map Char.toLower⟩

/-- Association-list model of `absl::flat_hash_map<std::string, std::string>`.
Only `contains`, `at`/lookup and `operator[]=` are used by the embedded code;
iteration order never matters on the verified paths. -/
def mapGet (m : List (String × String)) (k : String) : Option String :=
  match m with
  | [] => none
  | (k', v) :: rest => if k' = k then some v else mapGet rest k

def mapContains (m : List (String × String)) (k : String) : Bool :=
  (mapGet m k).isSome

/-- `m[k] = v`: replace the existing mapping if present, else append. -/
def mapSet (m : List (String × String)) (k v : String) :
    List (String × String) :=
  match m with
  | [] => [(k, v)]
  | (k', v') :: rest =>
      if k' = k then (k, v) :: rest else (k', v') :: mapSet rest k v

/-- Numeric value of a hex digit, mirroring the three character-range tests
in `URLDecode` (strings.cc:136-141). -/
def hexVal (c : Char) : Option Nat :=
  if '0' ≤ c ∧ c ≤ '9' then some (c.toNat - '0'.toNat)
  else if 'a' ≤ c ∧ c ≤ 'f' then some (c.toNat - 'a'.toNat + 10)
  else if 'A' ≤ c ∧ c ≤ 'F' then some (c.toNat - 'A'.toNat + 10)
  else none

/-- `wf::URLDecode` (strings.cc:114-164) on the character list.

* `+` becomes a space when `plus_space` is set;
* `%` followed by fewer than two characters aborts the decode, returning
  what has been produced so far (the `i + 2 >= s.size()` early return);
* `%` followed by two characters consumes both: if both are hex digits the
  decoded byte is appended, otherwise nothing is (the inner nibble loop
  advances `i` past both characters in every case and only pushes on a
  complete conversion);
* every other character is copied. -/
def urlDecodeChars (plusSpace : Bool) : List Char → List Char
  | [] => []
  | c :: rest =>
    if plusSpace ∧ c = '+' then ' ' :: urlDecodeChars plusSpace rest
    else if c = '%' then
      match rest with
      | c1 :: c2 :: rest2 =>
          match hexVal c1, hexVal c2 with
          | some v1, some v2 =>
              Char.ofNat (16 * v1 + v2) :: urlDecodeChars plusSpace rest2
          | _, _ => urlDecodeChars plusSpace rest2
      | _ => []
    else c :: urlDecodeChars plusSpace rest

/-- `wf::URLDecode` with its default `plus_space = true`. -/
def URLDecode (s : String) : String :=
  ⟨urlDecodeChars true s.toList⟩

/-- `absl::StrSplit` on a single-character delimiter: consecutive delimiters
produce empty pieces, and the empty input produces one empty piece. -/
def splitAtChar (sep : Char) : List Char → List (List Char)
  | [] => [[]]
  | c :: rest =>
      if c = sep then [] :: splitAtChar sep rest
      else match splitAtChar sep rest with
        | part :: parts => (c :: part) :: parts
        | [] => [[c]]

/-- Split one `key=value` pair at its first `=`; a pair with no `=` gets the
value `"1"` (strings.cc:43-53). -/
def splitPair (part : List Char) : List Char × List Char :=
  match part.findIdx? (· = '=') with
  | some pos => (part.take pos, part.drop (pos + 1))
  | none => (part, ['1'])

/-- One iteration of the `ParseQueryString` loop (strings.cc:42-63): decode
the key and, only when the map does not already contain it, insert the
decoded value. -/
def insertPair (query : List (String × String)) (part : List Char) :
    List (String × String) :=
  let kv := splitPair part
  let key : String := ⟨urlDecodeChars true kv.1⟩
  if mapContains query key then query
  else mapSet query key ⟨urlDecodeChars true kv.2⟩

/-- `wf::ParseQueryString` (strings.cc:38-64): split on `&`, split each pair
on its first `=` (missing `=` means value `"1"`), URL-decode keys and
values, first occurrence of a key wins. `query` is not cleared first. -/
def ParseQueryString (s : String) (query : List (String × String)) :
    List (String × String) :=
  (splitAtChar '&' s.toList).foldl insertPair query

/-! ## `wf::Request` (http.cc:81-312) — the parts the claims touch. -/

/-- `wf::Request` state. The defaults are the constructor's
(http.cc:81-83): method `"get"`, path `"/"`, version `"http/0.9"`. The body
stream and TLS flag play no role in any claim and are omitted. -/
structure Request where
  method : String := "get"
  path : String := "/"
  version : String := "http/0.9"
  headers : List (String × String) := []
  cookies : List (String × String) := []
  query : List (String × String) := []
  deriving DecidableEq, Repr

/-- `Request::Method` setter (http.cc:97-100): stores the method
lower-cased. -/
def Request.setMethod (r : Request) (m : String) : Request :=
  { r with method := CaseInsensitive m }

/-- `Request::Path` setter (http.cc:106-108): stored verbatim. -/
def Request.setPath (r : Request) (p : String) : Request :=
  { r with path := p }

/-- `Request::Header` getter (http.cc:144-152): the name is lower-cased
before lookup. -/
def Request.header (r : Request) (name : String) : Option String :=
  mapGet r.headers (CaseInsensitive name)

/-- `find_first_not_of(' ')` + `remove_prefix` (http.cc:173-176): strip
leading spaces; when the view is all spaces `find_first_not_of` is `npos`
and nothing is stripped. -/
def stripLeadingSpaces (l : List Char) : List Char :=
  match l.findIdx? (· ≠ ' ') with
  | some pos => l.drop pos
  | none => l

/-- `find_last_not_of(' ')` + `remove_suffix` (http.cc:177-180): strip
trailing spaces; all-space input is left alone. -/
def stripTrailingSpaces (l : List Char) : List Char :=
  match l.reverse.findIdx? (· ≠ ' ') with
  | some rpos => l.take (l.length - rpos)
  | none => l

/-- One `Cookie`-header part (http.cc:161-182): split at the first `=`
(missing `=` means value `"1"`), trim the key's leading and the value's
trailing spaces, URL-decode both, store with last-write-wins. -/
def insertCookiePart (cookies : List (String × String)) (part : List Char) :
    List (String × String) :=
  let kv :=
    match part.findIdx? (· = '=') with
    | some pos => (part.take pos, part.drop (pos + 1))
    | none => (part, ['1'])
  mapSet cookies ⟨urlDecodeChars true (stripLeadingSpaces kv.1)⟩
    ⟨urlDecodeChars true (stripTrailingSpaces kv.2)⟩

/-- `Request::Header` setter (http.cc:154-189): the name is lower-cased;
a `cookie` header is diverted into the cookie map (split on `;`), every
other header is stored in the header map. -/
def Request.setHeader (r : Request) (name value : String) : Request :=
  let n := CaseInsensitive name
  if n = "cookie" then
    { r with cookies :=
        (splitAtChar ';' value.toList).foldl insertCookiePart r.cookies }
  else
    { r with headers := mapSet r.headers n value }

/-! ## `wf::Route` (router.cc:39-107) -/

/-- `wf::Route`: three optional matchers; `Route()` leaves all three
absent. -/
structure Route where
  method? : Option String := none
  host? : Option String := none
  path? : Option String := none
  deriving DecidableEq, Repr

/-- `Route::RequireMethod` (router.cc:73-75): the matcher string is stored
verbatim — it is *not* lower-cased. -/
def Route.RequireMethod (r : Route) (m : String) : Route :=
  { r with method? := some m }

/-- `Route::RequireHost` (router.cc:85-87). -/
def Route.RequireHost (r : Route) (h : String) : Route :=
  { r with host? := some h }

/-- `Route::RequirePath` (router.cc:97-99). -/
def Route.RequirePath (r : Route) (p : String) : Route :=
  { r with path? := some p }

/-- The method clause of `Route::Match` (router.cc:44-51): a present
matcher must equal `req->Method()` verbatim, except that the matcher
`"get"` also accepts the request method `"head"`. -/
def Route.methodAgrees : Option String → String → Bool
  | none, _ => true
  | some m, reqMethod =>
      if m ≠ reqMethod then decide (m = "get" ∧ reqMethod = "head")
      else true

/-- The host clause of `Route::Match` (router.cc:53-64): a present matcher
requires a `Host` header equal to it; a missing header fails. -/
def Route.hostAgrees (h? : Option String) (req : Request) : Bool :=
  match h? with
  | none => true
  | some hv =>
      match req.header "Host" with
      | none => false
      | some s => s = hv

/-- The path clause of `Route::Match` (router.cc:66-68): exact equality. -/
def Route.pathAgrees : Option String → String → Bool
  | none, _ => true
  | some p, reqPath => p = reqPath

/-- `Route::Match` (router.cc:43-71): the three clauses in order, each able
to return `false` early. -/
def Route.Match (r : Route) (req : Request) : Bool :=
  Route.methodAgrees r.method? req.method
    && Route.hostAgrees r.host? req
    && Route.pathAgrees r.path? req.path

/-! ## `wf::Response` and the output sink (http.cc:314-521)

The `wf::ResponseWriter` collaborator is modelled by two flags saying
whether its `WriteHead`/`WriteChunk` calls succeed, and the `Response`
carries an event log recording every call made on the sink — the
observable behaviour §6 of the spec talks about.  A failing sink call is
modelled as returning a fixed `internal` status (the concrete code/message
of a faulty collaborator is outside the program). -/

/-- One call on the output sink. -/
inductive SinkEvent where
  | head
  | chunk (data : String)
  | endCall
  deriving DecidableEq, Repr

/-- Model of a `wf::ResponseWriter`: does `WriteHead` succeed, does
`WriteChunk` succeed.  (`End()` never fails.) -/
structure Writer where
  headOk : Bool := true
  chunkOk : Bool := true
  deriving DecidableEq, Repr

def sinkHeadFail : Status := ⟨.internal, "sink WriteHead failed"⟩
def sinkChunkFail : Status := ⟨.internal, "sink WriteChunk failed"⟩

/-- `wf::Response` state (http.cc:325-328 constructor defaults), plus the
sink event log, the list of body chunks the response accepted (what was
handed to `Response::Write` past its gates — for a HEAD-flagged response
these bytes are accepted but suppressed before the sink), and a `crashed`
marker modelling a null-`writer_` dereference. -/
structure Response where
  head_written : Bool := false
  finished : Bool := false
  version : String := "http/0.9"
  status : Nat := 200
  headers : List (String × String) := []
  charset : String := "utf-8"
  is_head : Bool := false
  error : Status := okStatus
  writer : Option Writer := none
  events : List SinkEvent := []
  bodyAccepted : List String := []
  crashed : Bool := false
  deriving DecidableEq, Repr

/-- `Response::Header` setter (http.cc:382-386): name lower-cased, value
stored. -/
def Response.setHeader (res : Response) (name value : String) : Response :=
  { res with headers := mapSet res.headers (CaseInsensitive name) value }

/-- `Response::Header` getter (http.cc:372-380). -/
def Response.header (res : Response) (name : String) : Option String :=
  mapGet res.headers (CaseInsensitive name)

/-- `Response::Status` setter (http.cc:368-370). -/
def Response.setStatus (res : Response) (st : Nat) : Response :=
  { res with status := st }

/-- `Response::Error` setter (http.cc:447-449). -/
def Response.setError (res : Response) (s : Status) : Response :=
  { res with error := s }

/-- `Response::WriteHead` (http.cc:451-476): no-op once head-written or
finished; fails with `Unavailable` when no writer is attached; otherwise
appends `"; charset=<charset>"` to the `content-type` header (defaulting
the media type to `application/octet-stream`), calls the sink's
`WriteHead`, and only marks `head_written` if that call succeeded. -/
def Response.WriteHead (res : Response) : Status × Response :=
  if res.head_written ∨ res.finished then (okStatus, res)
  else
    match res.writer with
    | none => (⟨.unavailable, "response writer not set"⟩, res)
    | some w =>
        let headers' :=
          if mapContains res.headers "content-type" then
            mapSet res.headers "content-type"
              ((mapGet res.headers "content-type").getD ""
                ++ "; charset=" ++ res.charset)
          else
            mapSet res.headers "content-type"
              ("application/octet-stream; charset=" ++ res.charset)
        let res' := { res with headers := headers',
                               events := res.events ++ [SinkEvent.head] }
        if w.headOk then (okStatus, { res' with head_written := true })
        else (sinkHeadFail, res')

/-- `Response::Write` (http.cc:478-498): refuse when finished; auto-write
the head, propagating its failure; accept the data; for a HEAD-flagged
response silently drop the bytes (headers still flowed); otherwise hand
them to the sink's `WriteChunk`.  (`writer_->WriteChunk` with a null
writer — impossible when the head was written through this API — is the
modelled crash.) -/
def Response.Write (res : Response) (data : String) : Status × Response :=
  if res.finished then
    (⟨.failedPrecondition, "cannot write data, response already finished"⟩,
     res)
  else
    let step := if res.head_written then (okStatus, res) else res.WriteHead
    if ¬step.1.isOk then step
    else
      let res1 := { step.2 with bodyAccepted := step.2.bodyAccepted ++ [data] }
      if res1.is_head then (okStatus, res1)
      else
        match res1.writer with
        | some w =>
            let res2 := { res1 with events := res1.events ++ [SinkEvent.chunk data] }
            if w.chunkOk then (okStatus, res2) else (sinkChunkFail, res2)
        | none => (okStatus, { res1 with crashed := true })

/-- The void `Response::End()` (http.cc:511-521): return early when
`finished` (a state this code never actually reaches — `finished_` is
never assigned); otherwise write the head with the error ignored and call
the sink's `End`.  Note that `finished` is *not* set afterwards, mirroring
the source. -/
def Response.EndNoData (res : Response) : Response :=
  if res.finished then res
  else
    let res1 := if res.head_written then res else res.WriteHead.2
    match res1.writer with
    | some _ => { res1 with events := res1.events ++ [SinkEvent.endCall] }
    | none => { res1 with crashed := true }

/-- `Response::End(data)` (http.cc:500-509): set `Content-Length` from the
data size when the head has not been written, write the data, then always
run the void `End()`, returning the write's status. -/
def Response.End (res : Response) (data : String) : Status × Response :=
  let res0 :=
    if ¬res.head_written then
      res.setHeader "Content-Length" (toString data.length)
    else res
  let step := res0.Write data
  (step.1, step.2.EndNoData)

/-- The chunks actually delivered to the sink, in order. -/
def Response.sinkChunks (res : Response) : List String :=
  res.events.filterMap fun e =>
    match e with
    | .chunk d => some d
    | _ => none

/-- Concatenation of the body chunks the response accepted. -/
def strJoin : List String → String
  | [] => ""
  | s :: rest => s ++ strJoin rest

def Response.body (res : Response) : String := strJoin res.bodyAccepted

/-- `small` occurs contiguously inside `big`. -/
def strContains (big small : String) : Prop :=
  ∃ a b : String, big = a ++ (small ++ b)

/-! ## Middleware behaviours and the Router (router.cc:109-260)

A `wf::Middleware` is invoked as `mw(req, res, next)` and the built-ins
exhibit one of four behaviours per invocation:

* call `next(OkStatus())` before returning (a pass-through middleware);
* call `next(s)` before returning for some fixed status `s`;
* the `wf::Processor` adapter (processor.cc:45-55): run a two-argument
  handler; call `next` with its status only when that status is a failure,
  call nothing on success;
* return without calling `next` at all (asynchronous resolution — the
  continuation is kept for later).

`runScan` below is the `for` loop inside the continuation built by
`Router::NextFactory` (router.cc:241-258), specialised to these
behaviours.  The scan works on the suffix of the route list from the
logical cursor onward (the C++ captures the cursor as an index into the
immutable `routes_` vector; the suffix it denotes is the same data).

The per-call `stack_flag` of the source is resolved in place: before each
matching middleware runs, a fresh marker is armed; a middleware that calls
its continuation before returning reaches that continuation while the
marker is armed, so the continuation merely disarms it and returns
(router.cc:234-239), and the scan — seeing the cleared marker
(router.cc:250-253) — continues its own loop iteration.  A middleware
that defers leaves the marker armed, so the scan returns with the
remaining suffix recorded in the `pending` outcome.

Each result also carries the maximum extra native stack depth (in frames
above the frame running the loop) that the dispatch used:

* invoking a middleware costs one frame;
* a middleware synchronously calling its continuation costs a second;
* a failure propagating to `old_next` from inside that continuation costs
  a third;
* continuing the loop after a synchronous middleware costs nothing — the
  trampoline property under verification. -/

inductive MW where
  | passThrough
  | failWith (s : Status)
  | proc (p : Response → Status × Response)
  | deferred

/-- What the scan did with the outer continuation `old_next`. -/
inductive ScanOutcome where
  | called (s : Status)
  | claimed
  | pending (rest : List (Route × MW))

/-- The scan loop of `Router::NextFactory` (router.cc:241-258) over the
remaining route entries, returning the outcome, the response state, and
the maximum extra stack depth used. -/
def runScan (req : Request) (res : Response) :
    List (Route × MW) → ScanOutcome × Response × Nat
  | [] => (.called okStatus, res, 1)
  | (rt, mw) :: rest =>
      if rt.Match req then
        match mw with
        | .passThrough =>
            let r := runScan req res rest
            (r.1, r.2.1, max 2 r.2.2)
        | .failWith s =>
            if s.isOk then
              let r := runScan req res rest
              (r.1, r.2.1, max 2 r.2.2)
            else (.called s, res, 3)
        | .proc p =>
            let pr := p res
            if pr.1.isOk then (.claimed, pr.2, 2)
            else (.called pr.1, pr.2, 3)
        | .deferred => (.pending rest, res, 1)
      else runScan req res rest

/-- What a later invocation of a stored continuation did. -/
inductive FireOutcome where
  | propagated (s : Status)
  | swallowed
  | ranScan (out : ScanOutcome)

/-- The continuation returned by `Router::NextFactory` (router.cc:219-259),
as fired with status `s` when the scan that built it has already returned:
a failure propagates to `old_next` untouched; otherwise, if the shared
marker is still armed the continuation disarms it and returns — nothing
else happens; only with a cleared marker does it run the scan loop.  The
final component is the marker cell's value afterwards. -/
def nextFn (req : Request) (res : Response) (rest : List (Route × MW))
    (flag : Option Bool) (s : Status) :
    FireOutcome × Response × Option Bool :=
  if ¬s.isOk then (.propagated s, res, flag)
  else
    match flag with
    | some true => (.swallowed, res, some false)
    | _ =>
        let r := runScan req res rest
        (.ranScan r.1, r.2.1, flag)

/-- `wf::Router`: the ordered route entries and the status-code-keyed
error-handler table. -/
structure Router where
  routes : List (Route × MW) := []
  errors : List (StatusCode × MW) := []

/-- `errors_.contains` / `errors_.at` (router.cc:178-180). -/
def errLookup : List (StatusCode × MW) → StatusCode → Option MW
  | [], _ => none
  | (c, mw) :: rest, c' => if c = c' then some mw else errLookup rest c'

/-- The double-failure branch of the error cascade (router.cc:186-198):
status 500, `Content-Type: text/plain`, a body rendering the original
error and the secondary error, then `End`. -/
def doubleFailureWrite (s s2 : Status) (res : Response) : Response :=
  let res := res.setStatus 500
  let res := res.setHeader "Content-Type" "text/plain"
  let res := res.WriteHead.2
  let res := (res.Write "An internal server error occurred:\n- ").2
  let res := (res.Write s.render).2
  let res := (res.Write
    "\n\nAdditionally, while handling the above error, another occurred:\n- ").2
  let res := (res.Write s2.render).2
  (res.End "\n").2

/-- The no-handler branch of the error cascade (router.cc:200-209):
status 500, `Content-Type: text/plain`, a body rendering the error, then
`End`. -/
def noHandlerWrite (s : Status) (res : Response) : Response :=
  let res := res.setStatus 500
  let res := res.setHeader "Content-Type" "text/plain"
  let res := res.WriteHead.2
  let res := (res.Write "An internal server error occurred:\n- ").2
  let res := (res.Write s.render).2
  (res.End "\n").2

/-- Invoking the registered error handler with the double-failure lambda
as its continuation (router.cc:180-199). -/
def invokeErrorHandler (mw : MW) (s : Status) (res : Response) : Response :=
  match mw with
  | .passThrough => res
  | .failWith s2 => if s2.isOk then res else doubleFailureWrite s s2 res
  | .proc p =>
      let pr := p res
      if pr.1.isOk then pr.2 else doubleFailureWrite s pr.1 pr.2
  | .deferred => res

def ranOffEnd : Status := ⟨.notFound, "ran off the end of the middleware stack"⟩

/-- The terminal continuation `Handle` installs (router.cc:163-210):
success with the head already written is normal completion; success
before any head is reinterpreted as NotFound; any failure is recorded on
the response and dispatched to the error cascade. -/
def Router.terminalNext (router : Router) (s0 : Status) (res : Response) :
    Response :=
  if s0.isOk ∧ res.head_written then res
  else
    let s := if s0.isOk then ranOffEnd else s0
    let res := res.setError s
    match errLookup router.errors s.code with
    | some mw => invokeErrorHandler mw s res
    | none => noHandlerWrite s res

/-- `Router::Handle` (router.cc:162-213): run the scan from the head of
the route list with the terminal continuation as `old_next`, then return
`absl::OkStatus()` unconditionally. -/
def Router.Handle (router : Router) (req : Request) (res : Response) :
    Status × Response :=
  let r := runScan req res router.routes
  match r.1 with
  | .called s0 => (okStatus, router.terminalNext s0 r.2.1)
  | .claimed => (okStatus, r.2.1)
  | .pending _ => (okStatus, r.2.1)

/-! ## `wf::StaticMiddleware` (middleware.cc:50-175)

The filesystem, the HTTP-date helpers of `httpdate.cc` and the mime-type
table are collaborators of the traversal logic under verification; they
are passed in as an explicit environment, and every touch of the
filesystem is recorded in a trace. -/

/-- A filesystem access made by the static middleware. -/
inductive FsOp where
  | statExists (p : String)
  | statIsRegular (p : String)
  | statFileSize (p : String)
  | statLastWrite (p : String)
  | openFile (p : String)
  deriving DecidableEq, Repr

/-- The path an access touches. -/
def FsOp.path : FsOp → String
  | .statExists p => p
  | .statIsRegular p => p
  | .statFileSize p => p
  | .statLastWrite p => p
  | .openFile p => p

/-- Environment of collaborators: filesystem predicates (`none` models the
throwing `std::filesystem` calls), the open/read behaviour of the file,
`ParseHTTPDate`/`FormatHTTPDate` over an abstract instant type, and
`GetMimeType`. -/
structure StaticEnv where
  fsExists : String → Bool
  fsIsRegular : String → Bool
  fsFileSize : String → Option Nat
  fsLastWrite : String → Option Int
  fsOpenOk : String → Bool
  fsChunks : String → List String
  parseDate : String → Option Int
  formatDate : Int → String
  mimeOf : String → String

/-- How one invocation of the middleware resolved. -/
inductive SMOutcome where
  | nextCalled (s : Status)
  | handled
  deriving DecidableEq, Repr

structure SMResult where
  outcome : SMOutcome
  res : Response
  fsTrace : List FsOp

/-- Boolean list-prefix test (the `find(x) != 0` idiom of
middleware.cc:61 and middleware.cc:97 checks exactly "starts with"). -/
def listStartsWith (l pre : List Char) : Bool :=
  match pre, l with
  | [], _ => true
  | _ :: _, [] => false
  | p :: ps, c :: cs => p = c && listStartsWith cs ps

/-- The `..`-segment scan of middleware.cc:75-92.  The C++ repeatedly
`find`s the next occurrence of `".."` from one past the previous hit and
`continue`s over occurrences that are not segments of their own; visiting
*every* position in increasing order and treating non-occurrences as a
`continue` performs the same iteration.  Returns `true` when a lone `..`
segment (bounded by `/` or by the string's boundaries) is found. -/
def dotdotScanFrom (s : List Char) (start : Nat) : Bool :=
  if h : start + 2 ≤ s.length then
    if s.getD start ' ' = '.' ∧ s.getD (start + 1) ' ' = '.' then
      if start ≥ 1 ∧ s.getD (start - 1) ' ' ≠ '/' then
        dotdotScanFrom s (start + 1)
      else if start + 2 < s.length ∧ s.getD (start + 2) ' ' ≠ '/' then
        dotdotScanFrom s (start + 1)
      else true
    else dotdotScanFrom s (start + 1)
  else false
termination_by s.length - start
decreasing_by all_goals omega

/-- The spec's notion of a `..` path segment occurring at position `p`
(§4.2 of the spec: a `..` "bounded by path separators or path
start/end").  Stated from the spec's words, to be compared against the
code's scan. -/
def dotdotQualifies (s : List Char) (p : Nat) : Prop :=
  p + 2 ≤ s.length ∧ s.getD p ' ' = '.' ∧ s.getD (p + 1) ' ' = '.' ∧
    (p = 0 ∨ s.getD (p - 1) ' ' = '/') ∧
    (p + 2 = s.length ∨ s.getD (p + 2) ' ' = '/')

/-- The spec's "path contains a `..` segment". -/
def hasDotDotSegment (s : List Char) : Prop :=
  ∃ p, dotdotQualifies s p

/-- `std::filesystem::path::operator/` with a relative, already-slash-
stripped right-hand side: insert one separator, no normalisation. -/
def pathJoin (root rel : List Char) : List Char := root ++ '/' :: rel

/-- `wf::StaticMiddleware` configuration.  `root` stands for the composed
`res->ComponentPath() / dir_` (both fixed at setup); `base` is `base_`
after the constructor appended a trailing `/` when missing
(middleware.cc:50-56; an empty base — undefined behaviour on
`base_.back()` in C++ — is modelled as gaining the slash). -/
structure StaticMiddleware where
  root : List Char
  base : List Char

def StaticMiddleware.make (root base : List Char) : StaticMiddleware :=
  { root, base := if base.getLast? = some '/' then base else base ++ ['/'] }

/-- The URL path with the base stripped and leading slashes removed
(middleware.cc:68-72; `remove_prefix(find_first_not_of('/'))`, with the
all-slash `npos` case — undefined behaviour in C++ — modelled as dropping
everything). -/
def StaticMiddleware.strippedPath (sm : StaticMiddleware) (req : Request) :
    List Char :=
  (req.path.toList.drop sm.base.length).dropWhile (· = '/')

/-- `StaticMiddleware::operator()` (middleware.cc:58-175). -/
def StaticMiddleware.run (sm : StaticMiddleware) (env : StaticEnv)
    (req : Request) (res : Response) : SMResult :=
  if ¬ listStartsWith req.path.toList sm.base then
    ⟨.nextCalled okStatus, res, []⟩
  else
    let truncated := sm.strippedPath req
    if dotdotScanFrom truncated 0 then
      ⟨.nextCalled ⟨.notFound, "path traversal attempt detected"⟩, res, []⟩
    else
      let path := pathJoin sm.root truncated
      if ¬ listStartsWith path sm.root then
        ⟨.nextCalled ⟨.notFound, "other path traversal attempt caught"⟩,
         res, []⟩
      else
        let pstr : String := ⟨path⟩
        if ¬ env.fsExists pstr then
          ⟨.nextCalled okStatus, res, [.statExists pstr]⟩
        else if ¬ env.fsIsRegular pstr then
          ⟨.nextCalled okStatus, res, [.statExists pstr, .statIsRegular pstr]⟩
        else
          match env.fsFileSize pstr with
          | none =>
              ⟨.nextCalled ⟨.internal, "file_size threw"⟩, res,
               [.statExists pstr, .statIsRegular pstr, .statFileSize pstr]⟩
          | some size =>
            match env.fsLastWrite pstr with
            | none =>
                ⟨.nextCalled ⟨.internal, "last_write_time threw"⟩, res,
                 [.statExists pstr, .statIsRegular pstr, .statFileSize pstr,
                  .statLastWrite pstr]⟩
            | some mtime =>
              let res1 := ((res.setHeader "Content-Length" (toString size)
                  ).setHeader "Content-Type" (env.mimeOf pstr)
                  ).setHeader "Last-Modified" (env.formatDate mtime)
              let trace := [FsOp.statExists pstr, .statIsRegular pstr,
                            .statFileSize pstr, .statLastWrite pstr]
              let notModified :=
                match req.header "If-Modified-Since" with
                | some v =>
                    match env.parseDate v with
                    | some t => decide (mtime ≤ t)
                    | none => false
                | none => false
              if notModified then
                ⟨.handled, ((res1.setStatus 304).EndNoData), trace⟩
              else if ¬ env.fsOpenOk pstr then
                ⟨.nextCalled ⟨.internal, "failed to open static file"⟩,
                 res1, trace ++ [.openFile pstr]⟩
              else
                let res2 := res1.WriteHead.2
                let res3 := (env.fsChunks pstr).foldl
                  (fun r c => (r.Write c).2) res2
                ⟨.handled, res3.EndNoData, trace ++ [.openFile pstr]⟩

/-! ## Concrete fixtures used by the theorems below. -/

/-- A working sink. -/
def okWriter : Writer := {}

/-- A fresh response bound to a working sink. -/
def sinkRes : Response := { writer := some okWriter }

/-- `N` pass-through middleware on always-matching routes, then one
terminal `Processor` adapted from the two-argument handler `p` — the
spec's §8 trampoline scenario. -/
def chainN (N : Nat) (p : Response → Status × Response) :
    List (Route × MW) :=
  List.replicate N (({} : Route), MW.passThrough) ++ [(({} : Route), MW.proc p)]

/-- A terminal handler that ends the response with a fixed body. -/
def endHello (res : Response) : Status × Response := res.End "hello"

/-- One deferring middleware followed by a terminal processor — the
asynchronous-resumption scenario of §4.3. -/
def deferredThenProc : List (Route × MW) :=
  [(({} : Route), MW.deferred), (({} : Route), MW.proc endHello)]

/-- A collaborator environment whose filesystem is empty; traversal
rejection must not depend on it. -/
def emptyEnv : StaticEnv where
  fsExists _ := false
  fsIsRegular _ := false
  fsFileSize _ := none
  fsLastWrite _ := none
  fsOpenOk _ := false
  fsChunks _ := []
  parseDate _ := none
  formatDate _ := ""
  mimeOf _ := "application/octet-stream"

/-- The `/static/` instance of the spec's §8 property. -/
def staticFixture : StaticMiddleware :=
  StaticMiddleware.make "/app/static".toList "/static/".toList

/-! ## General lemmas -/

theorem mapGet_mapSet_eq (m : List (String × String)) (k v : String) :
    mapGet (mapSet m k v) k = some v := by
  induction m with
  | nil => simp [mapSet, mapGet]
  | cons h t ih =>
      obtain ⟨k', v'⟩ := h
      by_cases hk : k' = k <;> simp [mapSet, mapGet, hk, ih]

theorem mapGet_mapSet_ne (m : List (String × String)) (k k' v : String)
    (h : k' ≠ k) : mapGet (mapSet m k' v) k = mapGet m k := by
  induction m with
  | nil => simp [mapSet, mapGet, h]
  | cons hd t ih =>
      obtain ⟨k'', v''⟩ := hd
      by_cases hk : k'' = k' <;> by_cases hk2 : k'' = k <;>
        simp_all [mapSet, mapGet]

theorem mapContains_mapSet_self (m : List (String × String)) (k v : String) :
    mapContains (mapSet m k v) k = true := by
  simp [mapContains, mapGet_mapSet_eq]

theorem strApp_assoc (a b c : String) : (a ++ b) ++ c = a ++ (b ++ c) := by
  apply String.ext
  simp [String.data_append, List.append_assoc]

theorem strJoin_append (l1 l2 : List String) :
    strJoin (l1 ++ l2) = strJoin l1 ++ strJoin l2 := by
  induction l1 with
  | nil => simp [strJoin, String.empty_append]
  | cons h t ih => simp [strJoin, ih, strApp_assoc]

theorem insertPair_preserves (q : List (String × String)) (part : List Char)
    (k : String) (h : mapContains q k = true) :
    mapGet (insertPair q part) k = mapGet q k := by
  unfold insertPair
  by_cases hc : mapContains q ⟨urlDecodeChars true (splitPair part).1⟩
  · simp [hc]
  · have hne : (⟨urlDecodeChars true (splitPair part).1⟩ : String) ≠ k := by
      intro he
      rw [he] at hc
      exact hc h
    simp [hc, mapGet_mapSet_ne _ _ _ _ hne]

theorem foldl_insertPair_preserves (parts : List (List Char))
    (q : List (String × String)) (k : String) (h : mapContains q k = true) :
    mapGet (parts.foldl insertPair q) k = mapGet q k := by
  induction parts generalizing q with
  | nil => simp
  | cons part rest ih =>
      have h1 : mapGet (insertPair q part) k = mapGet q k :=
        insertPair_preserves q part k h
      have h2 : mapContains (insertPair q part) k = true := by
        simp [mapContains, h1]
        simp [mapContains] at h
        exact h
      simp [List.foldl_cons, ih _ h2, h1]

/-! ## Claim theorems -/

/-- **C9**: `ParseQueryString` splits pairs on `&`, splits each pair on its
first `=` (a key with no `=` gets value `"1"`), percent-decodes and
`+`-to-space substitutes both keys and values, and on duplicate keys keeps
the first occurrence's value: the two examples from the claim, a decoding
example, and the general first-occurrence-wins property (a key already in
the map is never overwritten by later pairs). -/
theorem parse_query_string_first_wins :
    ParseQueryString "x=foo&auto&y=bar" []
        = [("x", "foo"), ("auto", "1"), ("y", "bar")] ∧
    ParseQueryString "a=1&a=2" [] = [("a", "1")] ∧
    ParseQueryString "a+b%21=c%20d+e" [] = [("a b!", "c d e")] ∧
    ∀ (s : String) (q : List (String × String)) (k : String),
      mapContains q k = true →
      mapGet (ParseQueryString s q) k = mapGet q k := by
  refine ⟨by decide, by decide, by decide, ?_⟩
  intro s q k h
  exact foldl_insertPair_preserves _ q k h

/-- **C9 witness**: the general clause at `"a=1&a=2"`-style duplicate
input: with `a ↦ 1` already present, parsing `a=2&b=3` leaves `a` at
`"1"`. -/
theorem parse_query_string_first_wins_witness :
    mapContains [("a", "1")] "a" = true ∧
    mapGet (ParseQueryString "a=2&b=3" [("a", "1")]) "a"
      = mapGet [("a", "1")] "a" :=
  ⟨by decide,
   parse_query_string_first_wins.2.2.2 "a=2&b=3" [("a", "1")] "a" (by decide)⟩

theorem methodAgrees_iff (m? : Option String) (rm : String) :
    Route.methodAgrees m? rm = true ↔
      ∀ m, m? = some m → m = rm ∨ (m = "get" ∧ rm = "head") := by
  cases m? with
  | none => simp [Route.methodAgrees]
  | some m =>
      by_cases h : m = rm <;> simp [Route.methodAgrees, h]

theorem hostAgrees_iff (h? : Option String) (req : Request) :
    Route.hostAgrees h? req = true ↔
      ∀ hv, h? = some hv → req.header "Host" = some hv := by
  cases h? with
  | none => simp [Route.hostAgrees]
  | some hv =>
      cases hh : req.header "Host" with
      | none => simp [Route.hostAgrees, hh]
      | some s => simp [Route.hostAgrees, hh, eq_comm]

theorem pathAgrees_iff (p? : Option String) (rp : String) :
    Route.pathAgrees p? rp = true ↔ ∀ p, p? = some p → p = rp := by
  cases p? with
  | none => simp [Route.pathAgrees]
  | some p => simp [Route.pathAgrees]

/-- **C5 counterexample**: a method matcher registered as `"GET"` — a
string identical to the request's original method, hence agreeing with it
under any case-insensitive comparison — fails `Route::Match`, because
`RequireMethod` stores the matcher verbatim while the `Request` setter
lower-cases the method, and the comparison is verbatim equality. -/
theorem route_match_upper_matcher_cex :
    ((({} : Route).RequireMethod "GET").method? = some "GET") ∧
    ((({} : Request).setMethod "GET").method = CaseInsensitive "GET") ∧
    Route.Match (({} : Route).RequireMethod "GET")
        (({} : Request).setMethod "GET") = false := by decide

/-- **C5 amended**: `Route::Match` returns `true` exactly when every
present matcher agrees with the request, where the method matcher is
compared *verbatim* against the request's stored method (which the
`Request` setter has lower-cased — so matching is case-insensitive in the
request's casing only when the matcher was registered in lower case), with
the single exception that the matcher `"get"` also accepts the stored
method `"head"` (and not vice versa, since `"head" = "get"` fails the
exception test); host and path comparisons are exact; a route with no
matchers set matches every request. -/
theorem route_match_characterization (r : Route) (req : Request) :
    Route.Match r req = true ↔
      ((∀ m, r.method? = some m →
          m = req.method ∨ (m = "get" ∧ req.method = "head")) ∧
       (∀ hv, r.host? = some hv → req.header "Host" = some hv) ∧
       (∀ p, r.path? = some p → p = req.path)) := by
  unfold Route.Match
  simp [Bool.and_eq_true, methodAgrees_iff, hostAgrees_iff, pathAgrees_iff,
    and_assoc]

/-- **C7**: for a response whose head has not yet been written (and that
is bound to a sink), `End(data)` sets `Content-Length` to the data's size,
hands the data to the sink as the single chunk after the head, and invokes
the sink's end operation on every exit path — with a sound head write the
sink sees exactly `WriteHead`, `WriteChunk data`, `End` (even when the
chunk write fails); with a failing head write the chunk is unwritable but
the end operation is still invoked; and the returned status reports any
sink failure. -/
theorem end_guarantees_sink_end (res : Response) (w : Writer) (data : String)
    (hw : res.head_written = false) (hf : res.finished = false)
    (hwr : res.writer = some w) (hih : res.is_head = false) :
    (res.End data).2.header "Content-Length" = some (toString data.length) ∧
    (w.headOk = true →
      (res.End data).2.events
        = res.events ++ [.head, .chunk data, .endCall]) ∧
    (w.headOk = false →
      (res.End data).2.events = res.events ++ [.head, .head, .endCall]) ∧
    ((res.End data).1.isOk = true ↔ w.headOk = true ∧ w.chunkOk = true) := by
  have hne : ("content-type" : String) ≠ "content-length" := by decide
  obtain ⟨hw', fin, ver, st, hdrs, cs, ih, err, wr, ev, ba, cr⟩ := res
  simp only at hw hf hwr hih
  subst hw hf hwr hih
  obtain ⟨hOk, cOk⟩ := w
  cases hOk <;> cases cOk <;>
    by_cases hct : mapContains
      (mapSet hdrs "content-length" (toString data.length)) "content-type"
        = true <;>
    simp [Response.End, Response.Write, Response.WriteHead,
      Response.EndNoData, Response.setHeader, Response.header,
      CaseInsensitive, okStatus, Status.isOk, sinkHeadFail, sinkChunkFail,
      hct, mapContains_mapSet_self,
      mapGet_mapSet_eq, mapGet_mapSet_ne _ _ _ _ hne]

/-- **C7 witness**: the spec's §8 scenario — a fresh response, a faulty
chunk write — still ends the sink. -/
theorem end_guarantees_sink_end_witness :
    let res : Response := { writer := some ⟨true, false⟩ }
    (res.End "Hello, world!\n").2.header "Content-Length" = some "14" ∧
    (res.End "Hello, world!\n").2.events
      = [.head, .chunk "Hello, world!\n", .endCall] := by
  have h := end_guarantees_sink_end
    { writer := some ⟨true, false⟩ } ⟨true, false⟩ "Hello, world!\n"
    rfl rfl rfl rfl
  exact ⟨h.1, h.2.1 rfl⟩

/-- **C8** (code evaluation at the failing input): after `End("a")` has
invoked the sink's end operation, the `finished` flag is still `false` —
no code path ever sets it — and a further `Write("b")` is accepted: it
returns OK and delivers another chunk to the sink after its end call,
contradicting the claimed irreversible transition and write refusal. -/
theorem finished_never_becomes_true_cex :
    ((sinkRes.End "a").2).finished = false ∧
    (((sinkRes.End "a").2).Write "b").1 = okStatus ∧
    (((sinkRes.End "a").2).Write "b").2.events
      = [.head, .chunk "a", .endCall, .chunk "b"] := by decide

theorem WriteHead_error (res : Response) : res.WriteHead.2.error = res.error := by
  unfold Response.WriteHead
  split
  · rfl
  · split
    · rfl
    · split <;> split <;> rfl

theorem Write_error (res : Response) (d : String) :
    (res.Write d).2.error = res.error := by
  have hW := WriteHead_error res
  unfold Response.Write
  repeat' split <;> simp_all

theorem EndNoData_error (res : Response) : res.EndNoData.error = res.error := by
  have hW := WriteHead_error res
  unfold Response.EndNoData
  split
  · rfl
  · split
    · cases h : res.writer <;> simp [h]
    · cases h : (res.WriteHead.2).writer <;> simp [h, hW]

theorem End_error (res : Response) (d : String) :
    (res.End d).2.error = res.error := by
  unfold Response.End
  split <;> simp [EndNoData_error, Write_error, Response.setHeader]

theorem noHandlerWrite_error (s : Status) (res : Response) :
    (noHandlerWrite s res).error = res.error := by
  unfold noHandlerWrite
  simp [End_error, Write_error, WriteHead_error, Response.setHeader,
    Response.setStatus]

theorem Route.empty_match (req : Request) : Route.Match {} req = true := rfl

/-- A scan over entries that are pass-through or non-matching exhausts the
list and calls the outer continuation with success, leaving the response
untouched. -/
theorem runScan_passive (req : Request) (res : Response)
    (entries : List (Route × MW))
    (hall : ∀ e ∈ entries, e.2 = MW.passThrough ∨ e.1.Match req = false) :
    ∃ d, runScan req res entries = (.called okStatus, res, d) := by
  induction entries with
  | nil => exact ⟨1, rfl⟩
  | cons e rest ih =>
      obtain ⟨rt, mw⟩ := e
      obtain ⟨d, hd⟩ := ih (fun e' he => hall e' (List.mem_cons_of_mem _ he))
      rcases hall (rt, mw) (List.mem_cons_self _ _) with hpass | hmatch
      · simp only at hpass
        subst hpass
        by_cases hm : rt.Match req
        · exact ⟨max 2 d, by simp [runScan, hm, hd]⟩
        · exact ⟨d, by simp [runScan, hm, hd]⟩
      · exact ⟨d, by simp [runScan, hmatch, hd]⟩

/-- **C10**: `Router::Handle` returns `absl::OkStatus()` unconditionally
— failures surface only through the response: in particular, a failure
reaching the terminal continuation is recorded as the response's captured
error (shown here for the synthesized-diagnostic path). -/
theorem handle_always_returns_ok (router : Router) (req : Request)
    (res : Response) :
    (router.Handle req res).1 = okStatus ∧
    (∀ s res1 d, runScan req res router.routes = (.called s, res1, d) →
      s.isOk = false → errLookup router.errors s.code = none →
      (router.Handle req res).2.error = s) := by
  constructor
  · unfold Router.Handle
    rcases h : runScan req res router.routes with ⟨out, res1, d⟩
    cases out <;> simp [h]
  · intro s res1 d h hok herr
    unfold Router.Handle
    simp only [h]
    unfold Router.terminalNext
    simp [hok, herr, noHandlerWrite_error, Response.setError]

/-- **C10 witness**: a router whose only middleware fails still gets an OK
return from `Handle`, with the failure recorded on the response. -/
theorem handle_always_returns_ok_witness :
    (Router.Handle ⟨[(({} : Route), MW.failWith ⟨.internal, "boom"⟩)], []⟩
        {} sinkRes).1 = okStatus ∧
    (Router.Handle ⟨[(({} : Route), MW.failWith ⟨.internal, "boom"⟩)], []⟩
        {} sinkRes).2.error = ⟨.internal, "boom"⟩ :=
  ⟨(handle_always_returns_ok _ _ _).1,
   (handle_always_returns_ok _ _ _).2 ⟨.internal, "boom"⟩ sinkRes 3
     rfl (by decide) rfl⟩

/-- **C1**: for a chain of `N` pass-through middleware that call
`next(ok)` before returning, followed by one terminal `Processor` whose
handler succeeds, the scan reaches the processor by resuming its own loop
in place: the maximum extra native stack depth is the constant `2`
(one frame for the middleware invocation, one for the continuation that
merely disarms the armed marker), independent of `N`, and `Handle`
completes with OK and the processor's response — no failure reaches the
error cascade. -/
theorem trampoline_constant_depth (N : Nat) (p : Response → Status × Response)
    (errs : List (StatusCode × MW)) (req : Request) (res : Response)
    (hp : ((p res).1).isOk = true) :
    runScan req res (chainN N p) = (.claimed, (p res).2, 2) ∧
    Router.Handle ⟨chainN N p, errs⟩ req res = (okStatus, (p res).2) := by
  have hscan : runScan req res (chainN N p) = (.claimed, (p res).2, 2) := by
    induction N with
    | zero => simp [chainN, runScan, Route.empty_match, hp]
    | succ n ih =>
        simp only [chainN, List.replicate_succ, List.cons_append] at ih ⊢
        simp [runScan, Route.empty_match, ih]
  refine ⟨hscan, ?_⟩
  unfold Router.Handle
  simp [hscan]

/-- **C1 witness**: the `N = 10000` instance with the concrete terminal
handler `endHello` on a fresh sink-bound response. -/
theorem trampoline_constant_depth_witness :
    ((endHello sinkRes).1).isOk = true ∧
    runScan {} sinkRes (chainN 10000 endHello)
      = (.claimed, (endHello sinkRes).2, 2) ∧
    Router.Handle ⟨chainN 10000 endHello, []⟩ {} sinkRes
      = (okStatus, (endHello sinkRes).2) :=
  ⟨by decide,
   (trampoline_constant_depth 10000 endHello [] {} sinkRes (by decide)).1,
   (trampoline_constant_depth 10000 endHello [] {} sinkRes (by decide)).2⟩

/-- **C2** (code evaluation at the failing input): one deferring
middleware in front of a terminal processor.  The scan stops with the
continuation bound to the remaining entries and its marker still armed;
when that deferred continuation later fires with success, it merely
disarms the marker and returns — the scan over the remaining entries is
*not* driven forward, no middleware or processor runs, the response is
untouched, and the outer continuation is never invoked: the request
stalls.  (Had the marker been cleared when the scan relinquished control,
the same firing would have driven the scan to the processor, as the last
conjunct shows.) -/
theorem deferred_resume_swallowed_cex :
    runScan ({} : Request) sinkRes deferredThenProc
      = (.pending [(({} : Route), MW.proc endHello)], sinkRes, 1) ∧
    nextFn {} sinkRes [(({} : Route), MW.proc endHello)] (some true) okStatus
      = (.swallowed, sinkRes, some false) ∧
    sinkRes.head_written = false ∧ sinkRes.events = [] ∧
    nextFn {} sinkRes [(({} : Route), MW.proc endHello)] (some false) okStatus
      = (.ranScan .claimed, (endHello sinkRes).2, some false) :=
  ⟨rfl, rfl, rfl, rfl, rfl⟩

/-- What the no-handler synthesized diagnostic does to a response whose
head is unwritten and whose sink accepts the head write. -/
theorem noHandlerWrite_spec (s : Status) (res : Response) (w : Writer)
    (hw : res.head_written = false) (hf : res.finished = false)
    (hwr : res.writer = some w) (hok : w.headOk = true) :
    (noHandlerWrite s res).status = 500 ∧
    (noHandlerWrite s res).header "Content-Type"
      = some ("text/plain; charset=" ++ res.charset) ∧
    (noHandlerWrite s res).bodyAccepted
      = res.bodyAccepted ++
        ["An internal server error occurred:\n- ", s.render, "\n"] := by
  obtain ⟨hw', fin, ver, st, hdrs, cs, ih, err, wr, ev, ba, cr⟩ := res
  simp only at hw hf hwr
  subst hw hf hwr
  obtain ⟨hOk, cOk⟩ := w
  simp only at hok
  subst hok
  cases ih <;> cases cOk <;>
    simp [noHandlerWrite, Response.setStatus, Response.setHeader,
      Response.WriteHead, Response.Write, Response.End, Response.EndNoData,
      Response.header, CaseInsensitive, okStatus, Status.isOk, sinkChunkFail,
      mapGet_mapSet_eq, mapContains_mapSet_self]

/-- What the double-failure diagnostic does to a response that can still
accept body writes (head already emitted, or a sink that accepts the head
write). -/
theorem doubleFailureWrite_spec (s s2 : Status) (res : Response) (w : Writer)
    (hf : res.finished = false) (hwr : res.writer = some w)
    (hcase : res.head_written = true ∨ w.headOk = true) :
    (doubleFailureWrite s s2 res).status = 500 ∧
    (doubleFailureWrite s s2 res).bodyAccepted
      = res.bodyAccepted ++
        ["An internal server error occurred:\n- ", s.render,
         "\n\nAdditionally, while handling the above error, another occurred:\n- ",
         s2.render, "\n"] := by
  obtain ⟨hw', fin, ver, st, hdrs, cs, ih, err, wr, ev, ba, cr⟩ := res
  simp only at hf hwr hcase
  subst hf hwr
  obtain ⟨hOk, cOk⟩ := w
  rcases hcase with hcase | hcase <;> subst hcase
  · cases hOk <;> cases cOk <;> cases ih <;>
      simp [doubleFailureWrite, Response.setStatus, Response.setHeader,
        Response.WriteHead, Response.Write, Response.End, Response.EndNoData,
        okStatus, Status.isOk, sinkChunkFail, sinkHeadFail,
        mapGet_mapSet_eq, mapContains_mapSet_self]
  · cases hw' <;> cases cOk <;> cases ih <;>
      simp [doubleFailureWrite, Response.setStatus, Response.setHeader,
        Response.WriteHead, Response.Write, Response.End, Response.EndNoData,
        okStatus, Status.isOk, sinkChunkFail, sinkHeadFail,
        mapGet_mapSet_eq, mapContains_mapSet_self]

/-- **C3**: when the scan exhausts the route list with success (every
entry is pass-through or does not match) and the response's head has not
been written, `Handle` reinterprets the outcome as the NotFound failure
"ran off the end of the middleware stack"; with no error handler
registered for NotFound, the response gets status 500, a `Content-Type`
of `text/plain` (with the response charset appended by `WriteHead`), and
a body containing the failure's message text. -/
theorem unclaimed_request_becomes_notfound_500 (router : Router)
    (req : Request) (res : Response) (w : Writer)
    (hall : ∀ e ∈ router.routes, e.2 = MW.passThrough ∨ e.1.Match req = false)
    (herr : errLookup router.errors .notFound = none)
    (hw : res.head_written = false) (hf : res.finished = false)
    (hwr : res.writer = some w) (hok : w.headOk = true) :
    (router.Handle req res).2.error = ranOffEnd ∧
    (router.Handle req res).2.status = 500 ∧
    (router.Handle req res).2.header "Content-Type"
      = some ("text/plain; charset=" ++ res.charset) ∧
    strContains ((router.Handle req res).2.body) ranOffEnd.message := by
  obtain ⟨d, hscan⟩ := runScan_passive req res router.routes hall
  have hterm : (router.Handle req res).2
      = noHandlerWrite ranOffEnd (res.setError ranOffEnd) := by
    unfold Router.Handle
    simp only [hscan]
    unfold Router.terminalNext
    simp [okStatus, Status.isOk, hw, ranOffEnd, herr]
  have hspec := noHandlerWrite_spec ranOffEnd (res.setError ranOffEnd) w
    (by simp [Response.setError, hw]) (by simp [Response.setError, hf])
    (by simp [Response.setError, hwr]) hok
  rw [hterm]
  refine ⟨?_, hspec.1, ?_, ?_⟩
  · rw [noHandlerWrite_error]
    simp [Response.setError]
  · rw [hspec.2.1]
    simp [Response.setError]
  · refine ⟨strJoin (res.bodyAccepted)
        ++ "An internal server error occurred:\n- NOT_FOUND: ", "\n", ?_⟩
    unfold Response.body
    rw [hspec.2.2]
    simp only [Response.setError]
    rw [strJoin_append]
    have hconc : strJoin ["An internal server error occurred:\n- ",
        ranOffEnd.render, "\n"]
        = "An internal server error occurred:\n- NOT_FOUND: "
          ++ (ranOffEnd.message ++ "\n") := by decide
    rw [hconc, ← strApp_assoc]

/-- **C3 witness**: an empty router and a fresh sink-bound response. -/
theorem unclaimed_request_becomes_notfound_500_witness :
    (Router.Handle ⟨[], []⟩ {} sinkRes).2.error = ranOffEnd ∧
    (Router.Handle ⟨[], []⟩ {} sinkRes).2.status = 500 ∧
    (Router.Handle ⟨[], []⟩ {} sinkRes).2.header "Content-Type"
      = some ("text/plain; charset=" ++ sinkRes.charset) ∧
    strContains ((Router.Handle ⟨[], []⟩ {} sinkRes).2.body)
      ranOffEnd.message :=
  unclaimed_request_becomes_notfound_500 ⟨[], []⟩ {} sinkRes okWriter
    (by simp) rfl rfl rfl rfl rfl

/-- **C4**: a failure `S` reaching the error cascade whose registered
handler for `S.code` itself fails with `S2` ends with status 500 and a
body containing both `S`'s and `S2`'s message texts — the second failure
is not dropped. -/
theorem double_failure_reports_both (router : Router) (req : Request)
    (res res1 : Response) (w : Writer) (S S2 : Status) (d : Nat)
    (hscan : runScan req res router.routes = (.called S, res1, d))
    (hS : S.isOk = false) (hS2 : S2.isOk = false)
    (hreg : errLookup router.errors S.code = some (.failWith S2))
    (hf : res1.finished = false) (hwr : res1.writer = some w)
    (hcase : res1.head_written = true ∨ w.headOk = true) :
    (router.Handle req res).2.status = 500 ∧
    strContains ((router.Handle req res).2.body) S.message ∧
    strContains ((router.Handle req res).2.body) S2.message := by
  have hterm : (router.Handle req res).2
      = doubleFailureWrite S S2 (res1.setError S) := by
    unfold Router.Handle
    simp only [hscan]
    unfold Router.terminalNext
    simp [hS, hreg, invokeErrorHandler, hS2]
  have hspec := doubleFailureWrite_spec S S2 (res1.setError S) w
    (by simp [Response.setError, hf]) (by simp [Response.setError, hwr])
    (by simpa [Response.setError] using hcase)
  rw [hterm]
  have hbody : (doubleFailureWrite S S2 (res1.setError S)).body
      = strJoin res1.bodyAccepted ++
        ("An internal server error occurred:\n- " ++
         ((S.code.render ++ ": ") ++ (S.message ++
          ("\n\nAdditionally, while handling the above error, another occurred:\n- " ++
           ((S2.code.render ++ ": ") ++ (S2.message ++ ("\n" ++ "")))))))
      := by
    unfold Response.body
    rw [hspec.2]
    simp only [Response.setError]
    rw [strJoin_append]
    simp only [strJoin]
    have hr1 : S.render = (S.code.render ++ ": ") ++ S.message := by
      unfold Status.render
      simp [hS]
    have hr2 : S2.render = (S2.code.render ++ ": ") ++ S2.message := by
      unfold Status.render
      simp [hS2]
    rw [hr1, hr2]
    simp [strApp_assoc]
  refine ⟨hspec.1, ?_, ?_⟩
  · refine ⟨strJoin res1.bodyAccepted ++
      ("An internal server error occurred:\n- " ++ (S.code.render ++ ": ")),
      "\n\nAdditionally, while handling the above error, another occurred:\n- " ++
        ((S2.code.render ++ ": ") ++ (S2.message ++ ("\n" ++ ""))), ?_⟩
    rw [hbody]
    simp [strApp_assoc]
  · refine ⟨strJoin res1.bodyAccepted ++
      ("An internal server error occurred:\n- " ++
       ((S.code.render ++ ": ") ++ (S.message ++
        ("\n\nAdditionally, while handling the above error, another occurred:\n- " ++
         (S2.code.render ++ ": "))))), "\n" ++ "", ?_⟩
    rw [hbody]
    simp [strApp_assoc]

/-- **C4 witness**: an InvalidArgument failure whose registered handler
fails with an Internal error: both messages appear in the body. -/
theorem double_failure_reports_both_witness :
    ((Router.Handle
        ⟨[(({} : Route), MW.failWith ⟨.invalidArgument, "bad input"⟩)],
         [(.invalidArgument, MW.failWith ⟨.internal, "handler exploded"⟩)]⟩
        {} sinkRes).2.status = 500) ∧
    strContains ((Router.Handle
        ⟨[(({} : Route), MW.failWith ⟨.invalidArgument, "bad input"⟩)],
         [(.invalidArgument, MW.failWith ⟨.internal, "handler exploded"⟩)]⟩
        {} sinkRes).2.body) "bad input" ∧
    strContains ((Router.Handle
        ⟨[(({} : Route), MW.failWith ⟨.invalidArgument, "bad input"⟩)],
         [(.invalidArgument, MW.failWith ⟨.internal, "handler exploded"⟩)]⟩
        {} sinkRes).2.body) "handler exploded" :=
  double_failure_reports_both _ {} sinkRes sinkRes okWriter
    ⟨.invalidArgument, "bad input"⟩ ⟨.internal, "handler exploded"⟩ 3
    rfl (by decide) (by decide) rfl rfl rfl (Or.inr rfl)

theorem exists_from_succ (s : List Char) (start : Nat)
    (h : ¬ dotdotQualifies s start) :
    (∃ p, start + 1 ≤ p ∧ dotdotQualifies s p) ↔
    (∃ p, start ≤ p ∧ dotdotQualifies s p) := by
  constructor
  · rintro ⟨p, hp, hq⟩
    exact ⟨p, by omega, hq⟩
  · rintro ⟨p, hp, hq⟩
    rcases Nat.eq_or_lt_of_le hp with he | hl
    · exact absurd hq (he ▸ h)
    · exact ⟨p, hl, hq⟩

/-- The code's `..` scan agrees with the spec's `..`-segment predicate,
from any start position. -/
theorem dotdotScanFrom_true_iff (s : List Char) :
    ∀ n start, s.length ≤ start + n →
      (dotdotScanFrom s start = true ↔
        ∃ p, start ≤ p ∧ dotdotQualifies s p) := by
  intro n
  induction n with
  | zero =>
      intro start hle
      rw [dotdotScanFrom]
      have hc : ¬(start + 2 ≤ s.length) := by omega
      rw [dif_neg hc]
      refine iff_of_false (by simp) ?_
      rintro ⟨p, hp, hq⟩
      have := hq.1
      omega
  | succ n ih =>
      intro start hle
      rw [dotdotScanFrom]
      by_cases hc : start + 2 ≤ s.length
      · rw [dif_pos hc]
        by_cases h1 : s.getD start ' ' = '.' ∧ s.getD (start + 1) ' ' = '.'
        · rw [if_pos h1]
          by_cases h2 : start ≥ 1 ∧ s.getD (start - 1) ' ' ≠ '/'
          · rw [if_pos h2, ih (start + 1) (by omega)]
            apply exists_from_succ
            intro hq
            obtain ⟨h2a, h2b⟩ := h2
            rcases hq.2.2.2.1 with h0 | hslash
            · omega
            · exact h2b hslash
          · rw [if_neg h2]
            by_cases h3 : start + 2 < s.length ∧ s.getD (start + 2) ' ' ≠ '/'
            · rw [if_pos h3, ih (start + 1) (by omega)]
              apply exists_from_succ
              intro hq
              obtain ⟨h3a, h3b⟩ := h3
              rcases hq.2.2.2.2 with h0 | hslash
              · omega
              · exact h3b hslash
            · rw [if_neg h3]
              refine iff_of_true rfl ⟨start, Nat.le_refl _, hc, h1.1, h1.2,
                ?_, ?_⟩
              · by_cases h0 : start = 0
                · exact Or.inl h0
                · right
                  by_contra hne
                  exact h2 ⟨by omega, hne⟩
              · by_cases heq : start + 2 = s.length
                · exact Or.inl heq
                · right
                  by_contra hne
                  exact h3 ⟨by omega, hne⟩
        · rw [if_neg h1, ih (start + 1) (by omega)]
          apply exists_from_succ
          intro hq
          exact h1 ⟨hq.2.1, hq.2.2.1⟩
      · rw [dif_neg hc]
        refine iff_of_false (by simp) ?_
        rintro ⟨p, hp, hq⟩
        have := hq.1
        omega

theorem dotdotScan_iff_spec (s : List Char) :
    dotdotScanFrom s 0 = true ↔ hasDotDotSegment s := by
  rw [dotdotScanFrom_true_iff s s.length 0 (by omega)]
  exact ⟨fun ⟨p, _, hq⟩ => ⟨p, hq⟩, fun ⟨p, hq⟩ => ⟨p, Nat.zero_le _, hq⟩⟩

theorem listStartsWith_append (l x : List Char) :
    listStartsWith (l ++ x) l = true := by
  induction l with
  | nil => simp [listStartsWith]
  | cons c cs ih => simp [listStartsWith, ih]

/-- **C6**: for a request under the middleware's base, a `..` segment (in
the spec's sense) in the base-stripped path makes the middleware call
`next` with the NotFound failure at once — no filesystem access happens
and the response is untouched; and every filesystem access the middleware
ever makes is on the composed final path, which has been checked to lie
beneath the allowed root before the first access. -/
theorem static_traversal_guard (sm : StaticMiddleware) (env : StaticEnv)
    (req : Request) (res : Response) :
    (listStartsWith req.path.toList sm.base = true →
      hasDotDotSegment (sm.strippedPath req) →
      (sm.run env req res).outcome
          = .nextCalled ⟨.notFound, "path traversal attempt detected"⟩ ∧
      (sm.run env req res).fsTrace = [] ∧
      (sm.run env req res).res = res) ∧
    (∀ op ∈ (sm.run env req res).fsTrace,
      op.path = ⟨pathJoin sm.root (sm.strippedPath req)⟩ ∧
      listStartsWith (pathJoin sm.root (sm.strippedPath req)) sm.root
        = true) := by
  constructor
  · intro hbase hdot
    have hscan : dotdotScanFrom (sm.strippedPath req) 0 = true :=
      (dotdotScan_iff_spec _).mpr hdot
    simp only [String.toList] at hbase
    unfold StaticMiddleware.run
    simp [hbase, hscan]
  · have hpre : listStartsWith (pathJoin sm.root (sm.strippedPath req))
        sm.root = true := listStartsWith_append _ _
    have hall : ((sm.run env req res).fsTrace).all
        (fun op => op.path == ⟨pathJoin sm.root (sm.strippedPath req)⟩)
          = true := by
      unfold StaticMiddleware.run
      by_cases hb : listStartsWith req.path.toList sm.base = true
      case neg =>
        rw [if_pos (by simpa using hb)]
        simp
      rw [if_neg (by simpa using hb)]
      by_cases hd : dotdotScanFrom (sm.strippedPath req) 0 = true
      case pos =>
        rw [if_pos hd]
        simp
      rw [if_neg hd, if_neg (by simpa using hpre)]
      by_cases he : env.fsExists ⟨pathJoin sm.root (sm.strippedPath req)⟩
        = true
      case neg =>
        rw [if_pos (by simpa using he)]
        simp [FsOp.path]
      rw [if_neg (by simpa using he)]
      by_cases hr : env.fsIsRegular ⟨pathJoin sm.root (sm.strippedPath req)⟩
        = true
      case neg =>
        rw [if_pos (by simpa using hr)]
        simp [FsOp.path]
      rw [if_neg (by simpa using hr)]
      rcases hfs : env.fsFileSize ⟨pathJoin sm.root (sm.strippedPath req)⟩
        with _ | size
      · simp [hfs, FsOp.path]
      simp only [hfs]
      rcases hlw : env.fsLastWrite ⟨pathJoin sm.root (sm.strippedPath req)⟩
        with _ | mtime
      · simp [hlw, FsOp.path]
      simp only [hlw]
      repeat' split
      all_goals simp [FsOp.path]
    intro op hop
    have hpath := List.all_eq_true.mp hall op hop
    exact ⟨by simpa using hpath, hpre⟩

/-- **C6 witness**: `/static/../../secret` under base `/static/` is
rejected with a NotFound outcome, with no filesystem access and an
untouched response. -/
theorem static_traversal_guard_witness :
    (staticFixture.run emptyEnv
        (({} : Request).setPath "/static/../../secret") sinkRes).outcome
      = .nextCalled ⟨.notFound, "path traversal attempt detected"⟩ ∧
    (staticFixture.run emptyEnv
        (({} : Request).setPath "/static/../../secret") sinkRes).fsTrace
      = [] := by
  have hdot : hasDotDotSegment
      (staticFixture.strippedPath (({} : Request).setPath
        "/static/../../secret")) := by
    refine ⟨0, ?_⟩
    unfold dotdotQualifies
    decide
  have h := (static_traversal_guard staticFixture emptyEnv
    (({} : Request).setPath "/static/../../secret") sinkRes).1
    (by decide) hdot
  exact ⟨h.1, h.2.1⟩

end WF
